import Mathlib

/-!
# HTTP gateway of the blockchain node (`api/api.go`)

A shallow embedding of `ErrorHandler`, `validateAddress` and the eight route
handlers registered by `StartServer`.

* A request is handled by passing a `Context` through the handler.  The context
  carries `c.Errors` and one chronological `trace` of everything observable:
  calls into the `lib`, `blockchain` and `wallet` packages, headers written by
  `c.AbortWithError`, and bodies written by `c.JSON`.
* The `lib`, `blockchain` and `wallet` packages are not part of `api.go`; what
  they return is a parameter (`Collaborators`).
* `gin`, `encoding/json` and `validator` are modelled as far as `api.go` uses
  them; each such definition says which library behaviour it stands for.
-/

namespace Api

/-! ## Go values -/

/-- Go `error` values.  The gateway tells errors apart in one way only:
`e.Err == http.ErrBodyReadAfterClose`, a comparison with one sentinel value.
Every other error is a value with a message (`errors.New(msg)` or an error
returned by a collaborator). -/
inductive GoError where
  | ErrBodyReadAfterClose
  | errorsNew (msg : String)
  deriving DecidableEq, Repr

/-- Go `err.Error()`. -/
def GoError.Error : GoError → String
  | .ErrBodyReadAfterClose => "http: invalid Read on closed Body"
  | .errorsNew msg => msg

/-- Go `[]T`: `none` is the nil slice (encoded by `encoding/json` as `null`),
`some xs` a non-nil slice (encoded as an array). -/
abbrev Slice (α : Type) := Option (List α)

/-- Go `append(s, x)`; appending to the nil slice gives a non-nil slice. -/
def Slice.append {α : Type} (s : Slice α) (x : α) : Slice α :=
  match s with
  | none => some [x]
  | some xs => some (xs ++ [x])

/-- Go `[]byte`. -/
abbrev Bytes := List Nat

/-- The fields of `blockchain.Block` the gateway reads (`PrevHash`) or that tell
blocks apart (`Hash`, `Height`). -/
structure Block where
  Hash : Bytes
  PrevHash : Bytes
  Height : Int
  deriving DecidableEq, Repr

/-- A `*blockchain.BlockChain` handle.  `Iterator` is the sequence of blocks that
successive `iter.Next()` calls on `chain.Iterator()` return, newest first. -/
structure BlockChain where
  LastHash : Bytes
  Iterator : List Block
  deriving DecidableEq, Repr

/-- The `*blockchain.Transaction` returned by `lib.Send`, passed through untouched. -/
structure Transaction where
  ID : Bytes
  deriving DecidableEq, Repr

/-! ## Responses -/

/-- A value stored under a key of a `gin.H` map. -/
inductive Value where
  | str (s : String)
  | strings (xs : Slice String)
  | int (n : Int)
  | blocks (bs : Slice Block)
  | tx (t : Transaction)
  deriving DecidableEq, Repr

/-- A `gin.H` literal, as the list of its key/value pairs. -/
abbrev H := List (String × Value)

/-- `http.StatusOK`. -/
def StatusOK : Nat := 200

/-- `http.StatusBadRequest`. -/
def StatusBadRequest : Nat := 400

/-- Everything a request does that can be observed from outside the handler. -/
inductive Event where
  | CreateWallet (nodeID : String)
  | ListAddresses (nodeID : String)
  | ContinueBlockChain (nodeID : String)
  | DatabaseClose
  | InitBlockChain (address nodeID : String)
  | Reindex (chain : BlockChain)
  | GetBalance (nodeID address : String)
  | Send (nodeID sender receiver : String) (amount : Int) (mine : Bool)
  | ReindexUTXO (nodeID : String)
  | ValidateAddress (address : String)
  | AbortWithStatus (code : Nat)
  | JSON (code : Nat) (obj : H)
  deriving DecidableEq, Repr

/-- A `gin.Error`: the wrapped Go error. -/
structure GinError where
  Err : GoError
  deriving DecidableEq, Repr

/-- The method `(*gin.Error).Error()`, which returns `msg.Err.Error()`. -/
def GinError.Error (e : GinError) : String := e.Err.Error

/-- The part of `*gin.Context` the gateway touches. `panicked` records that the
handler stopped with a run-time panic, which unwinds through `ErrorHandler`. -/
structure Context where
  Errors : List GinError
  trace : List Event
  panicked : Bool
  deriving DecidableEq, Repr

/-- The context at request entry. -/
def Context.new : Context := ⟨[], [], false⟩

/-- Record one observable event. -/
def Context.emit (c : Context) (e : Event) : Context :=
  { c with trace := c.trace ++ [e] }

/-- The call `c.JSON(code, obj)`: one JSON body is written to the response. -/
def Context.JSON (c : Context) (code : Nat) (obj : H) : Context :=
  c.emit (.JSON code obj)

/-- The call `c.AbortWithError(code, err)`: gin writes the status header at
once (`AbortWithStatus`) and appends the error to `c.Errors`.  It marks the
context aborted for the handlers still pending in the chain, and does not stop
the handler that is running. -/
def Context.AbortWithError (c : Context) (code : Nat) (err : GoError) : Context :=
  { c.emit (.AbortWithStatus code) with Errors := c.Errors ++ [⟨err⟩] }

/-! ## Collaborators -/

/-- What the environment and the `lib`, `blockchain` and `wallet` packages
answer during one request. -/
structure Collaborators where
  /-- The value of `os.Getenv("NODE_ID")`. -/
  NODE_ID : String
  CreateWallet : String → String
  ListAddresses : String → Slice String
  ContinueBlockChain : String → BlockChain
  InitBlockChain : String → String → Except GoError BlockChain
  GetBalance : String → String → Int
  Send : String → String → String → Int → Bool → Except GoError Transaction
  ReindexUTXO : String → Int
  ValidateAddress : String → Bool

/-! ## `ErrorHandler` -/

/-- The loop of `ErrorHandler`: starting from `var errors []string`, skip the
entries whose `Err` is `http.ErrBodyReadAfterClose` and append the message of
every other entry. -/
def collectErrors : List GinError → Slice String → Slice String
  | [], errors => errors
  | e :: rest, errors =>
    if e.Err = GoError.ErrBodyReadAfterClose then collectErrors rest errors
    else collectErrors rest (errors.append e.Error)

/-- The middleware `ErrorHandler`; `next` is what `c.Next()` runs. -/
def ErrorHandler (next : Context → Context) (c : Context) : Context :=
  let c := next c
  if c.panicked then c
  else if c.Errors.length > 0 then
    c.JSON StatusBadRequest [("error", .strings (collectErrors c.Errors none))]
  else c

/-! ## `validateAddress` -/

/-- The function `validateAddress(address, c)`; `len(address)` is the length in bytes. -/
def validateAddress (env : Collaborators) (address : String) (c : Context) : Context :=
  if address.utf8ByteSize < 5 then
    c.AbortWithError StatusBadRequest (.errorsNew "address is not valid")
  else
    let c := c.emit (.ValidateAddress address)
    if !env.ValidateAddress address then
      c.AbortWithError StatusBadRequest (.errorsNew "address is not valid")
    else c

/-! ## Binding the `/send` body -/

/-- A JSON value as `encoding/json` meets it when it fills one field of `Send`.
`number n` is an integer literal; `other kind` is any value that fits no field
of `Send` (an array, an object, a number with a fraction), `kind` being the
decoder's name for it. -/
inductive JSONValue where
  | null
  | bool (b : Bool)
  | number (n : Int)
  | string (s : String)
  | other (kind : String)
  deriving DecidableEq, Repr

/-- The fields of the handler-local `Send` struct. -/
inductive Field where
  | From
  | To
  | Amount
  | Mine
  deriving DecidableEq, Repr

/-- The JSON key of a field: its `json:"..."` tag. -/
def Field.key : Field → String
  | .From => "from"
  | .To => "to"
  | .Amount => "amount"
  | .Mine => "mine"

/-- The Go type of a field, as the decoder prints it. -/
def Field.goType : Field → String
  | .From => "string"
  | .To => "string"
  | .Amount => "int"
  | .Mine => "bool"

/-- A `/send` request body: either something the decoder rejects before it
reaches any field (no body, a syntax error, a top-level value that is not an
object), with the decoder's message, or a JSON object, given by its members in
document order, each under the field of `Send` its key matches.  Members whose
key matches no field are skipped by the decoder and are left out; a key may
occur more than once. -/
inductive Body where
  | invalid (err : String)
  | object (members : List (Field × JSONValue))
  deriving DecidableEq, Repr

/-- The handler-local `type Send struct`. -/
structure Send where
  From : String
  To : String
  Amount : Int
  Mine : Bool
  deriving DecidableEq, Repr

/-- The decoder's name for a JSON value (`UnmarshalTypeError.Value`). -/
def JSONValue.kind : JSONValue → String
  | .null => "null"
  | .bool _ => "bool"
  | .number _ => "number"
  | .string _ => "string"
  | .other kind => kind

/-- The `json.UnmarshalTypeError` for a value that does not fit a field of `Send`. -/
def unmarshalTypeError (value field goType : String) : GoError :=
  .errorsNew ("json: cannot unmarshal " ++ value ++ " into Go struct field Send." ++ field
    ++ " of type " ++ goType)

/-- The decoder at work: the struct filled so far and the first type error met
(`decodeState.savedError`). -/
structure Decoding where
  send : Send
  savedError : Option GoError
  deriving DecidableEq, Repr

/-- The decoder's `saveError`: only the first error is kept. -/
def Decoding.saveError (d : Decoding) (err : GoError) : Decoding :=
  match d.savedError with
  | none => { d with savedError := some err }
  | some _ => d

/-- Decoding one member into its field.  `null` has no effect; a value of the
field's type is stored (an `int` holds 64 bits); any other value leaves the
field as it is and saves a type error, after which decoding goes on. -/
def decodeMember (d : Decoding) : Field × JSONValue → Decoding
  | (_, .null) => d
  | (.From, .string s) => { d with send := { d.send with From := s } }
  | (.To, .string s) => { d with send := { d.send with To := s } }
  | (.Amount, .number n) =>
    if -(2 ^ 63 : Int) ≤ n ∧ n < 2 ^ 63 then { d with send := { d.send with Amount := n } }
    else d.saveError (unmarshalTypeError ("number " ++ toString n) "amount" "int")
  | (.Mine, .bool b) => { d with send := { d.send with Mine := b } }
  | (field, v) => d.saveError (unmarshalTypeError v.kind field.key field.goType)

/-- Decoding the members of an object one after the other, in document order. -/
def decodeMembers : List (Field × JSONValue) → Decoding → Decoding
  | [], d => d
  | m :: rest, d => decodeMembers rest (decodeMember d m)

/-- The `encoding/json` decoding of the body into `var send Send` (all fields
zero at the start): the saved type error if there is one, else the struct. -/
def decodeSend : Body → Except GoError Send
  | .invalid err => .error (.errorsNew err)
  | .object members =>
    match (decodeMembers members ⟨⟨"", "", 0, false⟩, none⟩).savedError with
    | some err => .error err
    | none => .ok (decodeMembers members ⟨⟨"", "", 0, false⟩, none⟩).send

/-- One `validator.FieldError`: the Go field that failed and the tag it failed on. -/
structure FieldError where
  Field : String
  Tag : String
  deriving DecidableEq, Repr

/-- The method `FieldError.Error()` of the validator package. -/
def FieldError.Error (fe : FieldError) : String :=
  "Key: 'Send." ++ fe.Field ++ "' Error:Field validation for '" ++ fe.Field
    ++ "' failed on the '" ++ fe.Tag ++ "' tag"

/-- The messages of several field errors, one per line
(`ValidationErrors.Error()`). -/
def joinLines : List String → String
  | [] => ""
  | [x] => x
  | x :: y :: rest => x ++ "\n" ++ joinLines (y :: rest)

/-- Which fields of `Send` carry `required` under one struct-tag name. -/
structure SendTags where
  From : Bool
  To : Bool
  Amount : Bool
  Mine : Bool

/-- The `binding:"..."` tags of `Send`: `from`, `to` and `amount` are `required`. -/
def bindingTags : SendTags := ⟨true, true, true, false⟩

/-- The `validate:"..."` tags of `Send`: the struct has none. -/
def validateTags : SendTags := ⟨false, false, false, false⟩

/-- The field errors of a struct validation: `required` fails on the zero value
of the field (`""`, `0`, `false`). -/
def fieldErrors (tags : SendTags) (send : Send) : List FieldError :=
  (if tags.From && send.From == "" then [⟨"From", "required"⟩] else [])
  ++ (if tags.To && send.To == "" then [⟨"To", "required"⟩] else [])
  ++ (if tags.Amount && send.Amount == 0 then [⟨"Amount", "required"⟩] else [])
  ++ (if tags.Mine && send.Mine == false then [⟨"Mine", "required"⟩] else [])

/-- Struct validation under one tag name: `nil` when no field fails. -/
def validateStruct (tags : SendTags) (send : Send) : Option GoError :=
  match fieldErrors tags send with
  | [] => none
  | errs => some (.errorsNew (joinLines (errs.map FieldError.Error)))

/-- The call `c.ShouldBindJSON(&send)`: decode the body, then validate the
result under the `binding` tags.  It attaches nothing to `c.Errors`. -/
def ShouldBindJSON (body : Body) : Except GoError Send :=
  match decodeSend body with
  | .error e => .error e
  | .ok send =>
    match validateStruct bindingTags send with
    | some e => .error e
    | none => .ok send

/-! ## The route handlers of `StartServer` -/

/-- The handler of `POST /ping`. -/
def ping (c : Context) : Context :=
  c.JSON StatusOK [("message", .str "pong")]

/-- The handler of `GET /createwallet`. -/
def createwallet (env : Collaborators) (c : Context) : Context :=
  let c := c.emit (.CreateWallet env.NODE_ID)
  let address := env.CreateWallet env.NODE_ID
  c.JSON StatusOK [("address", .str address)]

/-- The handler of `GET /listaddresses`. -/
def listaddresses (env : Collaborators) (c : Context) : Context :=
  let c := c.emit (.ListAddresses env.NODE_ID)
  let addresses := env.ListAddresses env.NODE_ID
  c.JSON StatusOK [("addresses", .strings addresses)]

/-- The `for` loop of `/printchain` over the blocks the iterator still has to
return, with the `blocks` accumulated so far.  `none`: `iter.Next()` has no
block to return and the handler panics. -/
def printchainLoop : List Block → Slice Block → Option (Slice Block)
  | [], _ => none
  | block :: rest, blocks =>
    let blocks := blocks.append block
    if block.PrevHash.length = 0 then some blocks
    else printchainLoop rest blocks

/-- The handler of `GET /printchain`; the deferred `chain.Database.Close()` runs last. -/
def printchain (env : Collaborators) (c : Context) : Context :=
  let c := c.emit (.ContinueBlockChain env.NODE_ID)
  let chain := env.ContinueBlockChain env.NODE_ID
  let c :=
    match printchainLoop chain.Iterator none with
    | none => { c with panicked := true }
    | some blocks => c.JSON StatusOK [("blocks", .blocks blocks)]
  c.emit .DatabaseClose

/-- The handler of `GET /createblockchain`; `address` is `c.Query("address")`. -/
def createblockchain (env : Collaborators) (address : String) (c : Context) : Context :=
  let c := validateAddress env address c
  let c := c.emit (.InitBlockChain address env.NODE_ID)
  match env.InitBlockChain address env.NODE_ID with
  | .error _ => c.JSON StatusBadRequest [("error", .str "Blockchain already exists")]
  | .ok chain =>
    let c := c.emit (.Reindex chain)
    c.JSON StatusOK [("message", .str "Finished!")]

/-- The handler of `GET /getbalance`; `address` is `c.Query("address")`. -/
def getbalance (env : Collaborators) (address : String) (c : Context) : Context :=
  let c := validateAddress env address c
  let c := c.emit (.GetBalance env.NODE_ID address)
  let balance := env.GetBalance env.NODE_ID address
  c.JSON StatusOK [("balance", .int balance)]

/-- The handler of `POST /send`. -/
def send (env : Collaborators) (body : Body) (c : Context) : Context :=
  match ShouldBindJSON body with
  | .error err => c.JSON StatusBadRequest [("error", .str err.Error)]
  | .ok send =>
    match validateStruct validateTags send with
    | some err => c.JSON StatusBadRequest [("error", .str err.Error)]
    | none =>
      let sender := send.From
      let receiver := send.To
      let amount := send.Amount
      let mine := send.Mine
      let c := validateAddress env sender c
      let c := validateAddress env receiver c
      let c := c.emit (.Send env.NODE_ID sender receiver amount mine)
      match env.Send env.NODE_ID sender receiver amount mine with
      | .error err => c.JSON StatusBadRequest [("error", .str err.Error)]
      | .ok tx => c.JSON StatusOK [("message", .str "Finished!"), ("transaction", .tx tx)]

/-- The handler of `GET /reindexutxo`. -/
def reindexutxo (env : Collaborators) (c : Context) : Context :=
  let c := c.emit (.ReindexUTXO env.NODE_ID)
  let count := env.ReindexUTXO env.NODE_ID
  c.JSON StatusOK [("message", .str "Finished!"), ("txCount", .int count)]

/-- A request to one of the registered routes, with the input its handler reads. -/
inductive Request where
  | ping
  | createwallet
  | listaddresses
  | printchain
  | createblockchain (address : String)
  | getbalance (address : String)
  | send (body : Body)
  | reindexutxo
  deriving DecidableEq, Repr

/-- The routing table of `StartServer`. -/
def route (env : Collaborators) : Request → Context → Context
  | .ping => ping
  | .createwallet => createwallet env
  | .listaddresses => listaddresses env
  | .printchain => printchain env
  | .createblockchain address => createblockchain env address
  | .getbalance address => getbalance env address
  | .send body => send env body
  | .reindexutxo => reindexutxo env

/-- One request through the server: `r.Use(ErrorHandler)` wraps every route. -/
def serve (env : Collaborators) (req : Request) : Context :=
  ErrorHandler (route env req) Context.new

/-- The bodies written with `c.JSON` during a request, in order. -/
def responses (c : Context) : List (Nat × H) :=
  c.trace.filterMap fun e =>
    match e with
    | .JSON code obj => some (code, obj)
    | _ => none

/-- A collaborator set for examples: node `"3000"`, an empty wallet, a chain of
one genesis block, every checksum accepted, every transfer accepted. -/
def demo : Collaborators where
  NODE_ID := "3000"
  CreateWallet := fun _ => "1DemoAddress"
  ListAddresses := fun _ => none
  ContinueBlockChain := fun _ => ⟨[1], [⟨[1], [], 0⟩]⟩
  InitBlockChain := fun _ _ => .ok ⟨[1], [⟨[1], [], 0⟩]⟩
  GetBalance := fun _ _ => 0
  Send := fun _ _ _ _ _ => .ok ⟨[7]⟩
  ReindexUTXO := fun _ => 1
  ValidateAddress := fun _ => true

/-! ## Vocabulary of the specification and example inputs -/

/-- The attached errors left once the transport artifacts (entries whose `Err`
is `http.ErrBodyReadAfterClose`) are removed. -/
def actionable (errs : List GinError) : List GinError :=
  errs.filter fun e => decide (e.Err ≠ GoError.ErrBodyReadAfterClose)

/-- An address passes validation: at least five bytes and accepted by
`wallet.ValidateAddress`. -/
def validAddress (env : Collaborators) (address : String) : Prop :=
  5 ≤ address.utf8ByteSize ∧ env.ValidateAddress address = true

instance (env : Collaborators) (address : String) : Decidable (validAddress env address) := by
  unfold validAddress; infer_instance

/-- The error `validateAddress` attaches on either rejection path. -/
def addressError : GinError := ⟨.errorsNew "address is not valid"⟩

/-- A handler that has attached the given errors by the time `c.Next()` returns. -/
def attach (errs : List GinError) (c : Context) : Context :=
  { c with Errors := c.Errors ++ errs }

/-- Collaborators like `demo`, except that the node already has a chain. -/
def demoExisting : Collaborators :=
  { demo with InitBlockChain := fun _ _ => .error (.errorsNew "blockchain already exists") }

/-- Collaborators like `demo`, except that no checksum is accepted. -/
def demoStrict : Collaborators :=
  { demo with ValidateAddress := fun _ => false }

/-- Collaborators like `demo`, with a chain of three blocks whose iterator would
go on past the genesis block. -/
def demoLong : Collaborators :=
  { demo with
    ContinueBlockChain := fun _ =>
      ⟨[3], [⟨[3], [2], 2⟩, ⟨[2], [1], 1⟩, ⟨[1], [], 0⟩, ⟨[9], [8], 7⟩]⟩ }

/-- The error shape of the specification: exactly the key `error`, holding an
array of strings. -/
def errorShape : H → Bool
  | [("error", .strings (some _))] => true
  | _ => false

/-- The payload has an `error` key. -/
def hasErrorKey (obj : H) : Bool :=
  obj.any fun kv => kv.1 == "error"

/-- A member the decoder accepts for its field: `null` (which it treats as
absent) or a value of the field's type, an `int` being within 64 bits. -/
def wellTyped : Field × JSONValue → Bool
  | (_, .null) => true
  | (.From, .string _) => true
  | (.To, .string _) => true
  | (.Amount, .number n) => decide (-(2 ^ 63 : Int) ≤ n ∧ n < 2 ^ 63)
  | (.Mine, .bool _) => true
  | _ => false

/-- The member gives `field` a value: it is for that field, not `null`, and of
the field's type. -/
def fills (field : Field) (m : Field × JSONValue) : Bool :=
  m.1 == field && m.2 != .null && wellTyped m

/-- Structural validity of a `/send` body: a JSON object in which every member
has the JSON type of its field and `from`, `to` and `amount` are present. -/
def structurallyValid : Body → Bool
  | .invalid _ => false
  | .object members =>
    members.all wellTyped && members.any (fills .From) && members.any (fills .To)
      && members.any (fills .Amount)

theorem collectErrors_eq (errs : List GinError) (acc : Slice String) :
    collectErrors errs acc =
      if actionable errs = [] then acc
      else some (acc.getD [] ++ (actionable errs).map GinError.Error) := by
  induction errs generalizing acc with
  | nil => simp [collectErrors, actionable]
  | cons e rest ih =>
    by_cases he : e.Err = GoError.ErrBodyReadAfterClose
    · have : actionable (e :: rest) = actionable rest := by simp [actionable, he]
      rw [this]
      simp [collectErrors, he, ih]
    · have : actionable (e :: rest) = e :: actionable rest := by simp [actionable, he]
      rw [this]
      simp only [collectErrors, he, if_false, ih]
      cases acc <;> by_cases hr : actionable rest = [] <;>
        simp [hr, Slice.append, Option.getD]

theorem validateAddress_short (env : Collaborators) (address : String) (c : Context)
    (h : address.utf8ByteSize < 5) :
    validateAddress env address c =
      ⟨c.Errors ++ [addressError], c.trace ++ [.AbortWithStatus 400], c.panicked⟩ := by
  simp [validateAddress, h, Context.AbortWithError, Context.emit, addressError, StatusBadRequest]

theorem validateAddress_rejected (env : Collaborators) (address : String) (c : Context)
    (h : 5 ≤ address.utf8ByteSize) (hv : env.ValidateAddress address = false) :
    validateAddress env address c =
      ⟨c.Errors ++ [addressError],
        c.trace ++ [.ValidateAddress address, .AbortWithStatus 400], c.panicked⟩ := by
  have h' : ¬ address.utf8ByteSize < 5 := by omega
  simp [validateAddress, h', hv, Context.AbortWithError, Context.emit, addressError,
    StatusBadRequest]

theorem validateAddress_accepted (env : Collaborators) (address : String) (c : Context)
    (h : 5 ≤ address.utf8ByteSize) (hv : env.ValidateAddress address = true) :
    validateAddress env address c =
      ⟨c.Errors, c.trace ++ [.ValidateAddress address], c.panicked⟩ := by
  have h' : ¬ address.utf8ByteSize < 5 := by omega
  simp [validateAddress, h', hv, Context.emit]

theorem printchainLoop_split (pre : List Block) (g : Block) (post : List Block)
    (acc : Slice Block) (hpre : ∀ x ∈ pre, x.PrevHash.length ≠ 0)
    (hg : g.PrevHash.length = 0) :
    printchainLoop (pre ++ g :: post) acc = some (some (acc.getD [] ++ pre ++ [g])) := by
  induction pre generalizing acc with
  | nil => cases acc <;> simp [printchainLoop, hg, Slice.append, Option.getD]
  | cons x xs ih =>
    have hx : x.PrevHash.length ≠ 0 := hpre x (by simp)
    have hxs : ∀ y ∈ xs, y.PrevHash.length ≠ 0 := fun y hy => hpre y (by simp [hy])
    rw [List.cons_append, printchainLoop]
    simp only [hx, if_false]
    rw [ih _ hxs]
    cases acc <;> simp [Slice.append, Option.getD]

theorem exists_genesis_split (bs : List Block) (h : ∃ b ∈ bs, b.PrevHash.length = 0) :
    ∃ pre g post, bs = pre ++ g :: post ∧ (∀ x ∈ pre, x.PrevHash.length ≠ 0) ∧
      g.PrevHash.length = 0 := by
  induction bs with
  | nil => simp at h
  | cons x xs ih =>
    by_cases hx : x.PrevHash.length = 0
    · exact ⟨[], x, xs, by simp, by simp, hx⟩
    · obtain ⟨b, hb, hb0⟩ := h
      have hb' : b ∈ xs := by
        rcases List.mem_cons.mp hb with rfl | h'
        · exact absurd hb0 hx
        · exact h'
      obtain ⟨pre, g, post, hsplit, hpre, hg⟩ := ih ⟨b, hb', hb0⟩
      refine ⟨x :: pre, g, post, by simp [hsplit], ?_, hg⟩
      intro y hy
      rcases List.mem_cons.mp hy with rfl | h'
      · exact hx
      · exact hpre y h'

/-! ## `ErrorHandler` -/

/-- C3: when `c.Next()` has returned and at least one attached error is not a
transport artifact, `ErrorHandler` adds exactly one event to what the handler
did: a `c.JSON` with status 400 whose `error` value is the array of the messages
of the remaining errors, in the order they were attached; when no error was
attached at all, `ErrorHandler` adds nothing. -/
theorem ErrorHandler_reports_remaining (next : Context → Context) (c : Context)
    (hret : (next c).panicked = false) :
    (actionable (next c).Errors ≠ [] →
      ErrorHandler next c =
        { next c with
          trace := (next c).trace ++
            [.JSON 400 [("error",
              .strings (some ((actionable (next c).Errors).map GinError.Error)))]] }) ∧
    ((next c).Errors = [] → ErrorHandler next c = next c) := by
  constructor
  · intro h
    have hne : (next c).Errors ≠ [] := by
      intro h0
      apply h
      simp [actionable, h0]
    have hlen : 0 < (next c).Errors.length := List.length_pos.mpr hne
    simp [ErrorHandler, hret, hlen, collectErrors_eq, h, Context.JSON, Context.emit,
      StatusBadRequest, Option.getD]
  · intro h
    simp [ErrorHandler, hret, h]

theorem ErrorHandler_reports_remaining_witness :
    ((attach [⟨.ErrBodyReadAfterClose⟩, ⟨.errorsNew "a"⟩, ⟨.errorsNew "b"⟩]
        Context.new).panicked = false ∧
      actionable (attach [⟨.ErrBodyReadAfterClose⟩, ⟨.errorsNew "a"⟩, ⟨.errorsNew "b"⟩]
        Context.new).Errors ≠ [] ∧
      ErrorHandler (attach [⟨.ErrBodyReadAfterClose⟩, ⟨.errorsNew "a"⟩, ⟨.errorsNew "b"⟩])
          Context.new =
        ⟨[⟨.ErrBodyReadAfterClose⟩, ⟨.errorsNew "a"⟩, ⟨.errorsNew "b"⟩],
          [.JSON 400 [("error", .strings (some ["a", "b"]))]], false⟩) ∧
    ((attach [] Context.new).Errors = [] ∧
      ErrorHandler (attach []) Context.new = Context.new) :=
  ⟨⟨by decide, by decide,
      (ErrorHandler_reports_remaining
        (attach [⟨.ErrBodyReadAfterClose⟩, ⟨.errorsNew "a"⟩, ⟨.errorsNew "b"⟩]) Context.new
        (by decide)).1 (by decide)⟩,
    ⟨by decide, (ErrorHandler_reports_remaining (attach []) Context.new (by decide)).2
      (by decide)⟩⟩

/-- C4 (evaluation at the failing input): with `http.ErrBodyReadAfterClose` as
the only attached error, `ErrorHandler` still writes a response: status 400 with
the nil slice (JSON `null`) under `error`. -/
theorem ErrorHandler_artifact_only_still_responds :
    actionable [⟨GoError.ErrBodyReadAfterClose⟩] = [] ∧
    ErrorHandler (attach [⟨.ErrBodyReadAfterClose⟩]) Context.new =
      ⟨[⟨.ErrBodyReadAfterClose⟩], [.JSON 400 [("error", .strings none)]], false⟩ := by
  decide

/-! ## `validateAddress` -/

/-- C9: `validateAddress` attaches exactly one error, with message
"address is not valid" and status 400, when the address has fewer than five
bytes or `wallet.ValidateAddress` returns false, and attaches nothing otherwise;
`wallet.ValidateAddress` is called exactly when the address has at least five
bytes, and both rejections attach the same error. -/
theorem validateAddress_outcomes (env : Collaborators) (address : String) (c : Context) :
    (address.utf8ByteSize < 5 →
      validateAddress env address c =
        ⟨c.Errors ++ [⟨.errorsNew "address is not valid"⟩],
          c.trace ++ [.AbortWithStatus 400], c.panicked⟩) ∧
    (5 ≤ address.utf8ByteSize → env.ValidateAddress address = false →
      validateAddress env address c =
        ⟨c.Errors ++ [⟨.errorsNew "address is not valid"⟩],
          c.trace ++ [.ValidateAddress address, .AbortWithStatus 400], c.panicked⟩) ∧
    (5 ≤ address.utf8ByteSize → env.ValidateAddress address = true →
      validateAddress env address c =
        ⟨c.Errors, c.trace ++ [.ValidateAddress address], c.panicked⟩) ∧
    (Event.ValidateAddress address ∈ (validateAddress env address Context.new).trace ↔
      5 ≤ address.utf8ByteSize) := by
  refine ⟨validateAddress_short env address c, validateAddress_rejected env address c,
    validateAddress_accepted env address c, ?_⟩
  by_cases h : address.utf8ByteSize < 5
  · rw [validateAddress_short env address _ h]
    simp [Context.new]
    omega
  · have h5 : 5 ≤ address.utf8ByteSize := by omega
    cases hv : env.ValidateAddress address
    · rw [validateAddress_rejected env address _ h5 hv]
      simp [Context.new, h5]
    · rw [validateAddress_accepted env address _ h5 hv]
      simp [Context.new, h5]

theorem validateAddress_outcomes_witness :
    ("abc".utf8ByteSize < 5 ∧
      validateAddress demo "abc" Context.new =
        ⟨[⟨.errorsNew "address is not valid"⟩], [.AbortWithStatus 400], false⟩) ∧
    (5 ≤ "1DemoAddress".utf8ByteSize ∧ demoStrict.ValidateAddress "1DemoAddress" = false ∧
      validateAddress demoStrict "1DemoAddress" Context.new =
        ⟨[⟨.errorsNew "address is not valid"⟩],
          [.ValidateAddress "1DemoAddress", .AbortWithStatus 400], false⟩) ∧
    (5 ≤ "1DemoAddress".utf8ByteSize ∧ demo.ValidateAddress "1DemoAddress" = true ∧
      validateAddress demo "1DemoAddress" Context.new =
        ⟨[], [.ValidateAddress "1DemoAddress"], false⟩) :=
  ⟨⟨by decide, (validateAddress_outcomes demo "abc" Context.new).1 (by decide)⟩,
    ⟨by decide, by decide,
      (validateAddress_outcomes demoStrict "1DemoAddress" Context.new).2.1 (by decide)
        (by decide)⟩,
    ⟨by decide, by decide,
      (validateAddress_outcomes demo "1DemoAddress" Context.new).2.2.1 (by decide)
        (by decide)⟩⟩

/-! ## `/printchain` -/

/-- C10: when the sequence of blocks the chain iterator returns contains a block
with an empty `PrevHash`, the `/printchain` loop ends and the `blocks` array of the
200 response is the part of the sequence up to and including the first such block,
in traversal order; when the first block returned already has an empty `PrevHash`
the array is that one block. -/
theorem printchain_blocks_up_to_genesis (env : Collaborators)
    (h : ∃ b ∈ (env.ContinueBlockChain env.NODE_ID).Iterator, b.PrevHash.length = 0) :
    (∃ pre g post,
      (env.ContinueBlockChain env.NODE_ID).Iterator = pre ++ g :: post ∧
      (∀ x ∈ pre, x.PrevHash.length ≠ 0) ∧ g.PrevHash.length = 0 ∧
      printchainLoop (env.ContinueBlockChain env.NODE_ID).Iterator none
        = some (some (pre ++ [g])) ∧
      serve env .printchain =
        ⟨[], [.ContinueBlockChain env.NODE_ID,
              .JSON 200 [("blocks", .blocks (some (pre ++ [g])))],
              .DatabaseClose], false⟩) ∧
    (∀ g rest, (env.ContinueBlockChain env.NODE_ID).Iterator = g :: rest →
      g.PrevHash.length = 0 →
      responses (serve env .printchain) = [(200, [("blocks", .blocks (some [g]))])]) := by
  constructor
  · obtain ⟨pre, g, post, hsplit, hpre, hg⟩ := exists_genesis_split _ h
    have hloop := printchainLoop_split pre g post none hpre hg
    rw [← hsplit] at hloop
    refine ⟨pre, g, post, hsplit, hpre, hg, ?_, ?_⟩
    · simpa [Option.getD] using hloop
    · simp [serve, route, ErrorHandler, printchain, hloop, Context.new, Context.emit,
        Context.JSON, StatusOK, Option.getD]
  · intro g rest hsplit hg
    have hloop := printchainLoop_split [] g rest none (by simp) hg
    rw [List.nil_append, ← hsplit] at hloop
    simp [serve, route, ErrorHandler, printchain, hloop, Context.new, Context.emit,
      Context.JSON, StatusOK, Option.getD, responses]

theorem printchain_blocks_up_to_genesis_witness :
    ((∃ b ∈ (demoLong.ContinueBlockChain demoLong.NODE_ID).Iterator, b.PrevHash.length = 0) ∧
      ∃ pre g post,
        (demoLong.ContinueBlockChain demoLong.NODE_ID).Iterator = pre ++ g :: post ∧
        (∀ x ∈ pre, x.PrevHash.length ≠ 0) ∧ g.PrevHash.length = 0 ∧
        printchainLoop (demoLong.ContinueBlockChain demoLong.NODE_ID).Iterator none
          = some (some (pre ++ [g])) ∧
        serve demoLong .printchain =
          ⟨[], [.ContinueBlockChain demoLong.NODE_ID,
                .JSON 200 [("blocks", .blocks (some (pre ++ [g])))],
                .DatabaseClose], false⟩) ∧
    ((∃ b ∈ (demo.ContinueBlockChain demo.NODE_ID).Iterator, b.PrevHash.length = 0) ∧
      responses (serve demo .printchain) =
        [(200, [("blocks", .blocks (some [⟨[1], [], 0⟩]))])]) :=
  ⟨⟨⟨⟨[1], [], 0⟩, by decide, by decide⟩,
      (printchain_blocks_up_to_genesis demoLong ⟨⟨[1], [], 0⟩, by decide, by decide⟩).1⟩,
    ⟨⟨⟨[1], [], 0⟩, by decide, by decide⟩,
      (printchain_blocks_up_to_genesis demo ⟨⟨[1], [], 0⟩, by decide, by decide⟩).2
        ⟨[1], [], 0⟩ [] (by decide) (by decide)⟩⟩

/-! ## `/createblockchain` -/

/-- C6: for `/createblockchain` with an address that passes validation, a failing
`blockchain.InitBlockChain` gives one 400 response and no `UTXOSet.Reindex` call;
a successful one is followed by exactly one `Reindex` of the new chain, and the
200 response is written only after it. -/
theorem createblockchain_reindexes_before_success (env : Collaborators) (address : String)
    (hlen : 5 ≤ address.utf8ByteSize) (hv : env.ValidateAddress address = true) :
    (∀ err, env.InitBlockChain address env.NODE_ID = .error err →
      serve env (.createblockchain address) =
        ⟨[], [.ValidateAddress address, .InitBlockChain address env.NODE_ID,
              .JSON 400 [("error", .str "Blockchain already exists")]], false⟩ ∧
      ∀ chain, Event.Reindex chain ∉ (serve env (.createblockchain address)).trace) ∧
    (∀ chain, env.InitBlockChain address env.NODE_ID = .ok chain →
      serve env (.createblockchain address) =
        ⟨[], [.ValidateAddress address, .InitBlockChain address env.NODE_ID,
              .Reindex chain, .JSON 200 [("message", .str "Finished!")]], false⟩ ∧
      ((serve env (.createblockchain address)).trace.filter
        fun e => e matches .Reindex _) = [.Reindex chain]) := by
  have hserve : ∀ ctx, ErrorHandler (createblockchain env address) Context.new = ctx →
      serve env (.createblockchain address) = ctx := fun _ h => h
  constructor
  · intro err herr
    have : serve env (.createblockchain address) =
        ⟨[], [.ValidateAddress address, .InitBlockChain address env.NODE_ID,
              .JSON 400 [("error", .str "Blockchain already exists")]], false⟩ := by
      apply hserve
      simp [ErrorHandler, createblockchain, validateAddress_accepted env address _ hlen hv,
        herr, Context.new, Context.emit, Context.JSON, StatusBadRequest]
    rw [this]
    simp
  · intro chain hok
    have : serve env (.createblockchain address) =
        ⟨[], [.ValidateAddress address, .InitBlockChain address env.NODE_ID,
              .Reindex chain, .JSON 200 [("message", .str "Finished!")]], false⟩ := by
      apply hserve
      simp [ErrorHandler, createblockchain, validateAddress_accepted env address _ hlen hv,
        hok, Context.new, Context.emit, Context.JSON, StatusOK]
    rw [this]
    simp [List.filter]

theorem createblockchain_reindexes_before_success_witness :
    (5 ≤ "1DemoAddress".utf8ByteSize ∧ demoExisting.ValidateAddress "1DemoAddress" = true ∧
      serve demoExisting (.createblockchain "1DemoAddress") =
        ⟨[], [.ValidateAddress "1DemoAddress", .InitBlockChain "1DemoAddress" "3000",
              .JSON 400 [("error", .str "Blockchain already exists")]], false⟩) ∧
    (5 ≤ "1DemoAddress".utf8ByteSize ∧ demo.ValidateAddress "1DemoAddress" = true ∧
      serve demo (.createblockchain "1DemoAddress") =
        ⟨[], [.ValidateAddress "1DemoAddress", .InitBlockChain "1DemoAddress" "3000",
              .Reindex ⟨[1], [⟨[1], [], 0⟩]⟩,
              .JSON 200 [("message", .str "Finished!")]], false⟩) :=
  ⟨⟨by decide, by decide,
      ((createblockchain_reindexes_before_success demoExisting "1DemoAddress" (by decide)
        (by decide)).1 (.errorsNew "blockchain already exists") (by rfl)).1⟩,
    ⟨by decide, by decide,
      ((createblockchain_reindexes_before_success demo "1DemoAddress" (by decide)
        (by decide)).2 ⟨[1], [⟨[1], [], 0⟩]⟩ (by rfl)).1⟩⟩

/-! ## Rejected addresses -/

/-- C1 (evaluation at the failing input): the address `"abc"` fails validation
(three bytes), and `"1DemoAddress"` fails it under collaborators that accept no
checksum; `/getbalance` still calls `lib.GetBalance` with it, `/createblockchain`
still calls `blockchain.InitBlockChain` and `UTXOSet.Reindex`, and `/send` still
calls `lib.Send`. -/
theorem rejected_address_reaches_collaborators :
    ¬ validAddress demo "abc" ∧ ¬ validAddress demoStrict "1DemoAddress" ∧
    (serve demo (.getbalance "abc")).trace =
      [.AbortWithStatus 400, .GetBalance "3000" "abc",
        .JSON 200 [("balance", .int 0)],
        .JSON 400 [("error", .strings (some ["address is not valid"]))]] ∧
    (serve demoStrict (.getbalance "1DemoAddress")).trace =
      [.ValidateAddress "1DemoAddress", .AbortWithStatus 400,
        .GetBalance "3000" "1DemoAddress",
        .JSON 200 [("balance", .int 0)],
        .JSON 400 [("error", .strings (some ["address is not valid"]))]] ∧
    (serve demo (.createblockchain "abc")).trace =
      [.AbortWithStatus 400, .InitBlockChain "abc" "3000",
        .Reindex ⟨[1], [⟨[1], [], 0⟩]⟩,
        .JSON 200 [("message", .str "Finished!")],
        .JSON 400 [("error", .strings (some ["address is not valid"]))]] ∧
    (serve demo (.send (.object
        [(.From, .string "abc"), (.To, .string "1DemoAddress"), (.Amount, .number 10)]))).trace =
      [.AbortWithStatus 400, .ValidateAddress "1DemoAddress",
        .Send "3000" "abc" "1DemoAddress" 10 false,
        .JSON 200 [("message", .str "Finished!"), ("transaction", .tx ⟨[7]⟩)],
        .JSON 400 [("error", .strings (some ["address is not valid"]))]] := by
  decide

/-! ## One response per request -/

/-- C2 (evaluation at the failing input): `/getbalance?address=abc` writes two
JSON bodies, the success payload of the handler and then the error payload of
`ErrorHandler`; so do `/createblockchain?address=abc` and a `/send` whose `to`
fails validation. -/
theorem rejected_address_writes_two_bodies :
    responses (serve demo (.getbalance "abc")) =
      [(200, [("balance", .int 0)]),
        (400, [("error", .strings (some ["address is not valid"]))])] ∧
    responses (serve demo (.createblockchain "abc")) =
      [(200, [("message", .str "Finished!")]),
        (400, [("error", .strings (some ["address is not valid"]))])] ∧
    responses (serve demo (.send (.object
        [(.From, .string "1DemoAddress"), (.To, .string "abc"), (.Amount, .number 10)]))) =
      [(200, [("message", .str "Finished!"), ("transaction", .tx ⟨[7]⟩)]),
        (400, [("error", .strings (some ["address is not valid"]))])] := by
  decide

theorem decodeMember_savedError (d : Decoding) (m : Field × JSONValue)
    (h : (decodeMember d m).savedError = none) :
    d.savedError = none ∧ wellTyped m = true := by
  obtain ⟨f, v⟩ := m
  cases hd : d.savedError <;> cases f <;> cases v <;>
    simp_all [decodeMember, wellTyped, Decoding.saveError] <;>
    split at h <;> simp_all

theorem decodeMember_From (d : Decoding) (m : Field × JSONValue) :
    (decodeMember d m).send.From = d.send.From ∨ fills .From m = true := by
  obtain ⟨f, v⟩ := m
  cases hd : d.savedError <;> cases f <;> cases v <;>
    simp [decodeMember, wellTyped, fills, Decoding.saveError, hd] <;>
    split <;> simp

theorem decodeMember_To (d : Decoding) (m : Field × JSONValue) :
    (decodeMember d m).send.To = d.send.To ∨ fills .To m = true := by
  obtain ⟨f, v⟩ := m
  cases hd : d.savedError <;> cases f <;> cases v <;>
    simp [decodeMember, wellTyped, fills, Decoding.saveError, hd] <;>
    split <;> simp

theorem decodeMember_Amount (d : Decoding) (m : Field × JSONValue) :
    (decodeMember d m).send.Amount = d.send.Amount ∨ fills .Amount m = true := by
  obtain ⟨f, v⟩ := m
  cases hd : d.savedError <;> cases f <;> cases v <;>
    simp [decodeMember, wellTyped, fills, Decoding.saveError, hd] <;>
    split <;> simp_all

theorem decodeMembers_savedError (members : List (Field × JSONValue)) (d : Decoding)
    (h : (decodeMembers members d).savedError = none) :
    d.savedError = none ∧ members.all wellTyped = true := by
  induction members generalizing d with
  | nil => simpa [decodeMembers] using h
  | cons m rest ih =>
    obtain ⟨h1, h2⟩ := ih _ h
    obtain ⟨h3, h4⟩ := decodeMember_savedError d m h1
    exact ⟨h3, by simp [h4, h2]⟩

theorem decodeMembers_From (members : List (Field × JSONValue)) (d : Decoding) :
    (decodeMembers members d).send.From = d.send.From ∨
      members.any (fills .From) = true := by
  induction members generalizing d with
  | nil => simp [decodeMembers]
  | cons m rest ih =>
    rcases ih (decodeMember d m) with h | h
    · rcases decodeMember_From d m with h' | h'
      · exact Or.inl (by rw [decodeMembers, h, h'])
      · exact Or.inr (by simp [h'])
    · exact Or.inr (by simp [h])

theorem decodeMembers_To (members : List (Field × JSONValue)) (d : Decoding) :
    (decodeMembers members d).send.To = d.send.To ∨
      members.any (fills .To) = true := by
  induction members generalizing d with
  | nil => simp [decodeMembers]
  | cons m rest ih =>
    rcases ih (decodeMember d m) with h | h
    · rcases decodeMember_To d m with h' | h'
      · exact Or.inl (by rw [decodeMembers, h, h'])
      · exact Or.inr (by simp [h'])
    · exact Or.inr (by simp [h])

theorem decodeMembers_Amount (members : List (Field × JSONValue)) (d : Decoding) :
    (decodeMembers members d).send.Amount = d.send.Amount ∨
      members.any (fills .Amount) = true := by
  induction members generalizing d with
  | nil => simp [decodeMembers]
  | cons m rest ih =>
    rcases ih (decodeMember d m) with h | h
    · rcases decodeMember_Amount d m with h' | h'
      · exact Or.inl (by rw [decodeMembers, h, h'])
      · exact Or.inr (by simp [h'])
    · exact Or.inr (by simp [h])

theorem decodeSend_ok (members : List (Field × JSONValue)) (s : Send)
    (h : decodeSend (.object members) = .ok s) :
    (decodeMembers members ⟨⟨"", "", 0, false⟩, none⟩).savedError = none ∧
      s = (decodeMembers members ⟨⟨"", "", 0, false⟩, none⟩).send := by
  simp only [decodeSend] at h
  split at h
  · simp at h
  · rename_i hnone
    simp only [Except.ok.injEq] at h
    exact ⟨hnone, h.symm⟩

theorem validateStruct_validateTags (s : Send) : validateStruct validateTags s = none := by
  simp [validateStruct, fieldErrors, validateTags]

theorem ShouldBindJSON_ok (body : Body) (s : Send) (h : ShouldBindJSON body = .ok s) :
    decodeSend body = .ok s ∧ s.From ≠ "" ∧ s.To ≠ "" ∧ s.Amount ≠ 0 := by
  unfold ShouldBindJSON at h
  split at h
  · simp at h
  · rename_i s' hdec
    split at h
    · simp at h
    · rename_i hval
      simp only [Except.ok.injEq] at h
      subst h
      refine ⟨hdec, ?_⟩
      unfold validateStruct at hval
      split at hval
      · rename_i hnil
        simp [fieldErrors, bindingTags] at hnil
        exact hnil
      · simp at hval

theorem ShouldBindJSON_ok_valid (body : Body) (s : Send) (h : ShouldBindJSON body = .ok s) :
    structurallyValid body = true := by
  obtain ⟨hdec, hf, ht, ha⟩ := ShouldBindJSON_ok body s h
  cases body with
  | invalid err => simp [decodeSend] at hdec
  | object members =>
    obtain ⟨hnone, hs⟩ := decodeSend_ok members s hdec
    have e0 := (decodeMembers_savedError members _ hnone).2
    have e1 : members.any (fills .From) = true := by
      rcases decodeMembers_From members ⟨⟨"", "", 0, false⟩, none⟩ with h | h
      · exact absurd (by rw [hs, h]) hf
      · exact h
    have e2 : members.any (fills .To) = true := by
      rcases decodeMembers_To members ⟨⟨"", "", 0, false⟩, none⟩ with h | h
      · exact absurd (by rw [hs, h]) ht
      · exact h
    have e3 : members.any (fills .Amount) = true := by
      rcases decodeMembers_Amount members ⟨⟨"", "", 0, false⟩, none⟩ with h | h
      · exact absurd (by rw [hs, h]) ha
      · exact h
    simp only [structurallyValid, e0, e1, e2, e3, Bool.and_self]

theorem send_bind_error (env : Collaborators) (body : Body) (err : GoError)
    (h : ShouldBindJSON body = .error err) :
    serve env (.send body) = ⟨[], [.JSON 400 [("error", .str err.Error)]], false⟩ := by
  simp [serve, route, ErrorHandler, send, h, Context.new, Context.JSON, Context.emit,
    StatusBadRequest]

/-! ## `/send`: structurally invalid bodies -/

/-- C7 (as amended): a structurally invalid `/send` body makes `ShouldBindJSON`
fail, and the handler then does one thing only: it writes a 400 response whose
`error` value is the message of the binding error, as a bare string.  `lib.Send`
and `wallet.ValidateAddress` are not called and nothing is attached to
`c.Errors`. -/
theorem send_structurally_invalid (env : Collaborators) (body : Body)
    (h : structurallyValid body = false) :
    ∃ err, ShouldBindJSON body = .error err ∧
      serve env (.send body) = ⟨[], [.JSON 400 [("error", .str err.Error)]], false⟩ := by
  cases hb : ShouldBindJSON body with
  | error err => exact ⟨err, rfl, send_bind_error env body err hb⟩
  | ok s =>
    have := ShouldBindJSON_ok_valid body s hb
    rw [h] at this
    exact absurd this (by decide)

theorem send_structurally_invalid_witness :
    structurallyValid (.object [(.From, .string "AAAAA"), (.To, .number 7),
      (.Amount, .number 10)]) = false ∧
    ∃ err, ShouldBindJSON (.object [(.From, .string "AAAAA"), (.To, .number 7),
        (.Amount, .number 10)]) = .error err ∧
      serve demo (.send (.object [(.From, .string "AAAAA"), (.To, .number 7),
        (.Amount, .number 10)])) = ⟨[], [.JSON 400 [("error", .str err.Error)]], false⟩ :=
  ⟨by decide, send_structurally_invalid demo _ (by decide)⟩

/-- C7 (counterexample): a `/send` body without `to` is answered with status 400
and the validator message as a bare string under `error`, which is not the error
shape (an array of strings). -/
theorem send_missing_field_not_error_shape :
    structurallyValid (.object [(.From, .string "AAAAA"), (.Amount, .number 10)])
      = false ∧
    responses (serve demo (.send (.object
        [(.From, .string "AAAAA"), (.Amount, .number 10)]))) =
      [(400, [("error", .str
        "Key: 'Send.To' Error:Field validation for 'To' failed on the 'required' tag")])] ∧
    errorShape [("error", .str
        "Key: 'Send.To' Error:Field validation for 'To' failed on the 'required' tag")]
      = false := by
  decide

theorem validateAddress_cases (env : Collaborators) (address : String) :
    (∀ c, validateAddress env address c =
      ⟨c.Errors ++ [addressError], c.trace ++ [.AbortWithStatus 400], c.panicked⟩) ∨
    (∀ c, validateAddress env address c =
      ⟨c.Errors ++ [addressError],
        c.trace ++ [.ValidateAddress address, .AbortWithStatus 400], c.panicked⟩) ∨
    (∀ c, validateAddress env address c =
      ⟨c.Errors, c.trace ++ [.ValidateAddress address], c.panicked⟩) := by
  by_cases h : address.utf8ByteSize < 5
  · exact Or.inl fun c => validateAddress_short env address c h
  · have h5 : 5 ≤ address.utf8ByteSize := by omega
    cases hv : env.ValidateAddress address
    · exact Or.inr (Or.inl fun c => validateAddress_rejected env address c h5 hv)
    · exact Or.inr (Or.inr fun c => validateAddress_accepted env address c h5 hv)

/-- C8 (as amended): in every request to every route, each body the route handler
writes is either a 200 success payload without an `error` key or a 400 payload
that is exactly `error` with a bare string; `ErrorHandler` then adds either
nothing or one 400 payload that is exactly `error` with a non-empty array of
strings. -/
theorem error_responses_shape (env : Collaborators) (req : Request) :
    (∀ r ∈ responses (route env req Context.new),
      (r.1 = 200 ∧ hasErrorKey r.2 = false) ∨
      (r.1 = 400 ∧ ∃ s, r.2 = [("error", .str s)])) ∧
    (serve env req = route env req Context.new ∨
      ∃ xs, xs ≠ [] ∧
        serve env req =
          { route env req Context.new with
            trace := (route env req Context.new).trace ++
              [.JSON 400 [("error", .strings (some xs))]] }) := by
  cases req with
  | ping =>
    simp [serve, route, ErrorHandler, ping, responses, hasErrorKey, Context.new, Context.JSON,
      Context.emit, StatusOK]
  | createwallet =>
    simp [serve, route, ErrorHandler, createwallet, responses, hasErrorKey, Context.new,
      Context.JSON, Context.emit, StatusOK]
  | listaddresses =>
    simp [serve, route, ErrorHandler, listaddresses, responses, hasErrorKey, Context.new,
      Context.JSON, Context.emit, StatusOK]
  | reindexutxo =>
    simp [serve, route, ErrorHandler, reindexutxo, responses, hasErrorKey, Context.new,
      Context.JSON, Context.emit, StatusOK]
    rintro a b (⟨rfl, _⟩ | ⟨rfl, _⟩) <;> decide
  | printchain =>
    cases hl : printchainLoop (env.ContinueBlockChain env.NODE_ID).Iterator none <;>
      simp [serve, route, ErrorHandler, printchain, hl, responses, hasErrorKey, Context.new,
        Context.JSON, Context.emit, StatusOK]
  | getbalance address =>
    rcases validateAddress_cases env address with h | h | h <;>
      simp [serve, route, ErrorHandler, getbalance, h, responses, hasErrorKey, Context.new,
        Context.JSON, Context.emit, StatusOK, StatusBadRequest, collectErrors, addressError,
        Slice.append, GinError.Error, GoError.Error]
  | createblockchain address =>
    rcases validateAddress_cases env address with h | h | h <;>
      cases hi : env.InitBlockChain address env.NODE_ID <;>
      simp [serve, route, ErrorHandler, createblockchain, h, hi, responses, hasErrorKey,
        Context.new, Context.JSON, Context.emit, StatusOK, StatusBadRequest, collectErrors,
        addressError, Slice.append, GinError.Error, GoError.Error]
  | send body =>
    cases hb : ShouldBindJSON body with
    | error err =>
      simp [serve, route, ErrorHandler, send, hb, responses, hasErrorKey, Context.new,
        Context.JSON, Context.emit, StatusBadRequest]
    | ok s =>
      rcases validateAddress_cases env s.From with h1 | h1 | h1 <;>
        rcases validateAddress_cases env s.To with h2 | h2 | h2 <;>
        cases hs : env.Send env.NODE_ID s.From s.To s.Amount s.Mine <;>
        simp [serve, route, ErrorHandler, send, hb, validateStruct_validateTags, h1, h2, hs,
          responses, hasErrorKey, Context.new, Context.JSON, Context.emit, StatusOK,
          StatusBadRequest, collectErrors, addressError, Slice.append, GinError.Error,
          GoError.Error] <;>
        (rintro a b (⟨rfl, _⟩ | ⟨rfl, _⟩) <;> decide)

theorem error_responses_shape_witness :
    ((400, [("error", Value.str "Blockchain already exists")]) ∈
      responses (route demoExisting (.createblockchain "1DemoAddress") Context.new)) ∧
    (((400, [("error", Value.str "Blockchain already exists")]) : Nat × H).1 = 400 ∧
      ∃ s, ((400, [("error", Value.str "Blockchain already exists")]) : Nat × H).2
        = [("error", .str s)]) ∧
    ("abc".utf8ByteSize < 5 ∧
      ∃ xs, xs ≠ [] ∧
        (serve demo (.getbalance "abc")).trace =
          (route demo (.getbalance "abc") Context.new).trace ++
            [.JSON 400 [("error", .strings (some xs))]]) :=
  ⟨by decide,
    ((error_responses_shape demoExisting (.createblockchain "1DemoAddress")).1
      (400, [("error", Value.str "Blockchain already exists")]) (by decide)).resolve_left
      (by decide),
    by decide,
    ((error_responses_shape demo (.getbalance "abc")).2.resolve_left (by decide)).imp
      fun _ h => ⟨h.1, congrArg Context.trace h.2⟩⟩

/-- C8 (counterexample): when the node already has a chain, `/createblockchain`
with a valid address answers 400 with the bare string "Blockchain already exists"
under `error`, which is not an array of strings. -/
theorem createblockchain_exists_error_is_bare_string :
    responses (serve demoExisting (.createblockchain "1DemoAddress")) =
      [(400, [("error", .str "Blockchain already exists")])] ∧
    errorShape [("error", .str "Blockchain already exists")] = false := by
  decide

end Api
